import Mathlib

/-
  Verification of the wedge/arcband construction tool
  (`Wedge_Maker_Two_Bearings.py`) against its natural-language
  specification.

  The embedding works at three levels:
  * exact rational arithmetic (`ℚ`) with Python's `%` operator (`pymod`)
    for the bearing/classification logic of `createWedges`;
  * a small geometry AST (`Geo`) recording which backend operations
    (`Buffer`, `Clip_analysis`, `Erase_analysis`, `Merge_management`,
    `Dissolve_management`) `createWedges`/`createOneWedge` invoke and
    with which parameters;
  * real arithmetic (`ℝ`) for the trigonometric triangle-vertex
    formulas of `createOneWedge`.
  String handling (`parseRadius`, the attribute-reading loop of
  `processWedges`) is modelled over `String`/`List Char` with Python
  `str.split()` / `str.upper()` semantics, and the `in_memory`
  workspace of intermediate datasets is modelled as a list of names.
-/

/-! ## Python `%` on rationals

Python's `a % b` for `b > 0` returns the representative of `a` mod `b`
in `[0, b)`: `a - b * floor (a / b)`. All uses in the source have
`b = 360`. -/

def pymod (a b : ℚ) : ℚ := a - b * ⌊a / b⌋

theorem pymod_add_int_mul (a : ℚ) (k : ℤ) :
    pymod (a + k * 360) 360 = pymod a 360 := by
  unfold pymod
  have h : (a + k * 360) / 360 = a / 360 + k := by
    field_simp
  rw [h, Int.floor_add_int]
  push_cast
  ring

theorem pymod_reduce_add_left (x y : ℚ) :
    pymod (pymod x 360 + y) 360 = pymod (x + y) 360 := by
  have h := pymod_add_int_mul (x + y) (-⌊x / 360⌋)
  have harg : pymod x 360 + y = x + y + (-⌊x / 360⌋ : ℤ) * 360 := by
    unfold pymod; push_cast; ring
  rw [harg, h]

theorem pymod_reduce_add_right (x y : ℚ) :
    pymod (x + pymod y 360) 360 = pymod (x + y) 360 := by
  rw [add_comm x (pymod y 360), pymod_reduce_add_left, add_comm]

theorem pymod_reduce_sub_left (x y : ℚ) :
    pymod (pymod x 360 - y) 360 = pymod (x - y) 360 := by
  have h := pymod_add_int_mul (x - y) (-⌊x / 360⌋)
  have harg : pymod x 360 - y = x - y + (-⌊x / 360⌋ : ℤ) * 360 := by
    unfold pymod; push_cast; ring
  rw [harg, h]

theorem pymod_reduce_sub_right (x y : ℚ) :
    pymod (x - pymod y 360) 360 = pymod (x - y) 360 := by
  have h := pymod_add_int_mul (x - y) ⌊y / 360⌋
  have harg : x - pymod y 360 = x - y + (⌊y / 360⌋ : ℤ) * 360 := by
    unfold pymod; ring
  rw [harg, h]

theorem pymod_eq_mul_fract (a : ℚ) : pymod a 360 = 360 * Int.fract (a / 360) := by
  unfold pymod Int.fract
  field_simp

theorem pymod_nonneg (a : ℚ) : 0 ≤ pymod a 360 := by
  rw [pymod_eq_mul_fract]
  exact mul_nonneg (by norm_num) (Int.fract_nonneg _)

theorem pymod_lt (a : ℚ) : pymod a 360 < 360 := by
  rw [pymod_eq_mul_fract]
  have h := Int.fract_lt_one (a / 360)
  nlinarith [Int.fract_nonneg (a / 360)]

theorem pymod_eq_self {a : ℚ} (h0 : 0 ≤ a) (h1 : a < 360) : pymod a 360 = a := by
  unfold pymod
  have hfloor : ⌊a / 360⌋ = 0 := by
    rw [Int.floor_eq_zero_iff]
    constructor
    · positivity
    · rw [div_lt_one (by norm_num)]
      simpa using h1
  rw [hfloor]
  ring

theorem pymod_idem (a : ℚ) : pymod (pymod a 360) 360 = pymod a 360 :=
  pymod_eq_self (pymod_nonneg a) (pymod_lt a)

theorem pymod_eq_zero_iff_of_abs_lt {x : ℚ} (h : |x| < 360) :
    pymod x 360 = 0 ↔ x = 0 := by
  rcases le_or_lt 0 x with hx | hx
  · rw [pymod_eq_self hx (lt_of_abs_lt h)]
  · have hgt : -360 < x := neg_lt_of_abs_lt h
    have h1 : pymod x 360 = x + 360 := by
      have := pymod_add_int_mul x 1
      rw [show x + (1 : ℤ) * 360 = x + 360 by push_cast; ring] at this
      rw [← this, pymod_eq_self (by linarith) (by linarith)]
    rw [h1]
    constructor
    · intro hz; linarith
    · intro hz; linarith

/-- The double-reduction of `createWedges` lines 497-501: reducing both
bearings into `[0, 360)` before taking the difference mod 360 gives the
same sweep as reducing the raw difference. -/
theorem pymod_sub_pymod (a b : ℚ) :
    pymod (pymod b 360 - pymod a 360) 360 = pymod (b - a) 360 := by
  rw [pymod_reduce_sub_left, pymod_reduce_sub_right]

/-! ## Case classification (`createWedges` lines 489-520, and the
copy-vs-clip branch of `createOneWedge` line 262) -/

inductive SectorCase where
  | ZeroDegree
  | FullCircle
  | NearHalfTurn
  | Standard
deriving DecidableEq, Repr

/-- The classification the code performs for one wedge, read off the
control flow of `createWedges` (lines 489-520) together with the
full-circle copy branch of `createOneWedge` (line 262):
* lines 489-493 set `booFullCircle` from the unreduced bearings;
* lines 497-498 reduce both bearings into `[0, 360)`;
* line 501 computes `theta` from the reduced bearings;
* line 508 skips the wedge (`ZeroDegree`) when `theta == 0` and no full
  circle was requested;
* line 520 splits when `135 < theta % 360 < 225` (`NearHalfTurn`);
* otherwise `createOneWedge` runs, whose line 262 copies the plain
  circle (`FullCircle`) when its two (reduced) angles coincide — for
  reduced angles that radian-space test is exactly `theta = 0`, see
  `radian_branch_check_iff` below — and clips/erases (`Standard`)
  otherwise. -/
def classify (angleA angleB : ℚ) : SectorCase :=
  let booFullCircle := pymod (angleB - angleA) 360 = 0 ∧ angleB ≠ angleA
  let a := pymod angleA 360
  let b := pymod angleB 360
  let theta := pymod (b - a) 360
  if theta = 0 ∧ ¬booFullCircle then .ZeroDegree
  else if 135 < theta ∧ theta < 225 then .NearHalfTurn
  else if theta = 0 then .FullCircle
  else .Standard

/-- Modelled from the spec's words (§4.1 `classify`): the full-circle
test first, on the unreduced bearings; then reduce, and dispatch on
`theta`. Used only to compare against `classify` above. -/
def specClassify (startBearing endBearing : ℚ) : SectorCase :=
  if pymod (endBearing - startBearing) 360 = 0 ∧ endBearing ≠ startBearing then
    .FullCircle
  else
    let theta := pymod (pymod endBearing 360 - pymod startBearing 360) 360
    if theta = 0 then .ZeroDegree
    else if 135 < theta ∧ theta < 225 then .NearHalfTurn
    else .Standard

/-- **C1**: for every pair of bearings the code's classification agrees
with the spec's: `FullCircle` iff `(endBearing - startBearing) mod 360 = 0`
and `endBearing ≠ startBearing`, decided first on the unreduced bearings;
otherwise, with `theta` the reduced sweep, `ZeroDegree` iff `theta = 0`,
`NearHalfTurn` iff `135 < theta < 225`, and `Standard` otherwise.  Being a
function into `SectorCase`, the classification yields exactly one case. -/
theorem classify_matches_spec (angleA angleB : ℚ) :
    classify angleA angleB = specClassify angleA angleB := by
  unfold classify specClassify
  have hcong : pymod (pymod angleB 360 - pymod angleA 360) 360
      = pymod (angleB - angleA) 360 := pymod_sub_pymod angleA angleB
  by_cases hfull : pymod (angleB - angleA) 360 = 0 ∧ angleB ≠ angleA
  · have htheta : pymod (pymod angleB 360 - pymod angleA 360) 360 = 0 := by
      rw [hcong]; exact hfull.1
    simp only [htheta, hfull]
    norm_num
  · by_cases hzero : pymod (pymod angleB 360 - pymod angleA 360) 360 = 0
    · simp only [hzero, hfull]
      norm_num
    · have hsplit : ¬(pymod (pymod angleB 360 - pymod angleA 360) 360 = 0
          ∧ ¬(pymod (angleB - angleA) 360 = 0 ∧ angleB ≠ angleA)) := by
        intro h; exact hzero h.1
      simp only [hfull, hzero, hsplit, if_false, if_neg hsplit]
      by_cases hmid : 135 < pymod (pymod angleB 360 - pymod angleA 360) 360
          ∧ pymod (pymod angleB 360 - pymod angleA 360) 360 < 225
      · simp [hmid]
      · simp [hmid, hzero]

/-! ## Real-valued check of the radian-space branch condition

`createOneWedge` converts its angles to radians (lines 163-165) and the
copy-vs-clip/erase branch at line 262 tests
`(secondAngle - firstAngle) % 360 != 0` on those radian values.  On the
documented precondition domain (both angles in `[0, 360)`, which is how
`createWedges` always calls it) that test holds exactly when the two
degree-valued angles differ, i.e. exactly when the degree-level sweep is
a nonzero residue mod 360.  The lemmas below prove this, justifying the
degree-level rendering of the branch used in `createOneWedgeGeo`. -/

noncomputable def pymodR (a b : ℝ) : ℝ := a - b * ⌊a / b⌋

/-- `math.radians`: degrees to radians. -/
noncomputable def radiansR (x : ℝ) : ℝ := x * (Real.pi / 180)

theorem pymodR_add_int_mul (a : ℝ) (k : ℤ) :
    pymodR (a + k * 360) 360 = pymodR a 360 := by
  unfold pymodR
  have h : (a + k * 360) / 360 = a / 360 + k := by field_simp
  rw [h, Int.floor_add_int]
  push_cast
  ring

theorem pymodR_eq_self {a : ℝ} (h0 : 0 ≤ a) (h1 : a < 360) : pymodR a 360 = a := by
  unfold pymodR
  have hfloor : ⌊a / 360⌋ = 0 := by
    rw [Int.floor_eq_zero_iff]
    constructor
    · positivity
    · rw [div_lt_one (by norm_num)]
      simpa using h1
  rw [hfloor]
  ring

theorem pymodR_eq_zero_iff_of_abs_lt {x : ℝ} (h : |x| < 360) :
    pymodR x 360 = 0 ↔ x = 0 := by
  rcases le_or_lt 0 x with hx | hx
  · rw [pymodR_eq_self hx (lt_of_abs_lt h)]
  · have hgt : -360 < x := neg_lt_of_abs_lt h
    have h1 : pymodR x 360 = x + 360 := by
      have h2 := pymodR_add_int_mul x 1
      rw [show x + ((1 : ℤ) : ℝ) * 360 = x + 360 by push_cast; ring] at h2
      rw [← h2, pymodR_eq_self (by linarith) (by linarith)]
    rw [h1]
    constructor
    · intro hz; linarith
    · intro hz; linarith

/-- On the precondition domain of `createOneWedge` (angles in `[0, 360)`),
the line 262 test `(secondAngle - firstAngle) % 360 != 0` on the radian
values holds iff the two angles differ. -/
theorem radian_branch_check_iff {firstAngle secondAngle : ℝ}
    (hf0 : 0 ≤ firstAngle) (hf1 : firstAngle < 360)
    (hs0 : 0 ≤ secondAngle) (hs1 : secondAngle < 360) :
    (pymodR (radiansR secondAngle - radiansR firstAngle) 360 ≠ 0
      ↔ secondAngle ≠ firstAngle) := by
  have hpi : 0 < Real.pi := Real.pi_pos
  have hx : radiansR secondAngle - radiansR firstAngle
      = (secondAngle - firstAngle) * (Real.pi / 180) := by
    unfold radiansR; ring
  have habs : |(secondAngle - firstAngle) * (Real.pi / 180)| < 360 := by
    have hd : |secondAngle - firstAngle| < 360 := abs_sub_lt_of_nonneg_of_lt hs0 hs1 hf0 hf1
    have hfac : |Real.pi / 180| < 1 := by
      rw [abs_of_pos (by positivity)]
      have := Real.pi_lt_d2
      linarith
    calc |(secondAngle - firstAngle) * (Real.pi / 180)|
        = |secondAngle - firstAngle| * |Real.pi / 180| := abs_mul _ _
      _ < 360 * 1 := by
          apply mul_lt_mul' (le_of_lt hd) hfac (abs_nonneg _)
          norm_num
      _ = 360 := by norm_num
  rw [hx, not_iff_not]
  rw [pymodR_eq_zero_iff_of_abs_lt habs]
  constructor
  · intro h
    have : secondAngle - firstAngle = 0 := by
      rcases mul_eq_zero.mp h with h1 | h1
      · exact h1
      · exfalso
        have : Real.pi / 180 > 0 := by positivity
        linarith
    linarith
  · intro h
    rw [h]
    ring

/-! ## Geometry operation traces

`Geo` records which backend geometry operations the tool invokes and
with which parameters.  A clip/erase triangle is recorded by the five
parameters that determine its vertices (`Tri`); the actual
trigonometric vertex coordinates are computed over `ℝ` by
`triangleRing` below. -/

structure Tri where
  cx : ℚ
  cy : ℚ
  r : ℚ
  firstAngle : ℚ
  secondAngle : ℚ
deriving DecidableEq, Repr

inductive Geo where
  /-- `Buffer_analysis` of the center point by the outer radius (line 250). -/
  | circle (cx cy r : ℚ)
  /-- `Clip_analysis` of a circle with a triangle (line 266). -/
  | clip (c : Geo) (t : Tri)
  /-- `Erase_analysis` of a triangle from a circle (line 264). -/
  | erase (c : Geo) (t : Tri)
  /-- `Merge_management` of two sub-wedges (line 534). -/
  | merge (g1 g2 : Geo)
  /-- `Dissolve_management` (line 540). -/
  | dissolve (g : Geo)
  /-- `innerWedgeErase` (lines 368-412): buffer the center by the inner
  radius and erase that circle from the wedge. -/
  | innerErase (g : Geo) (cx cy r2 : ℚ)
deriving DecidableEq, Repr

/-- The geometry produced by one `createOneWedge` call (lines 114-277):
compute `theta = secondAngle - firstAngle` (line 143) and the erase flag
`theta % 360 > 180` (line 155); buffer the center (line 250); then
(lines 262-268) erase or clip unless the sweep is a zero residue, in
which case the circle is copied unchanged.  The line 262 test runs on
the radian values; on the precondition domain `[0, 360)` it is
equivalent to the degree-level test used here (`radian_branch_check_iff`
together with `pymod_eq_zero_iff_of_abs_lt`). -/
def createOneWedgeGeo (cx cy r firstAngle secondAngle : ℚ) : Geo :=
  let theta := secondAngle - firstAngle
  let tri : Tri := ⟨cx, cy, r, firstAngle, secondAngle⟩
  if pymod theta 360 ≠ 0 then
    if 180 < pymod theta 360 then .erase (.circle cx cy r) tri
    else .clip (.circle cx cy r) tri
  else .circle cx cy r

/-- The sweep (mod 360) of every clip/erase triangle recorded in a trace,
in construction order. -/
def triSweeps : Geo → List ℚ
  | .circle _ _ _ => []
  | .clip g t => triSweeps g ++ [pymod (t.secondAngle - t.firstAngle) 360]
  | .erase g t => triSweeps g ++ [pymod (t.secondAngle - t.firstAngle) 360]
  | .merge g1 g2 => triSweeps g1 ++ triSweeps g2
  | .dissolve g => triSweeps g
  | .innerErase g _ _ _ => triSweeps g

theorem createOneWedgeGeo_eq_erase (cx cy r firstAngle secondAngle : ℚ)
    (h : 180 < pymod (secondAngle - firstAngle) 360) :
    createOneWedgeGeo cx cy r firstAngle secondAngle
      = .erase (.circle cx cy r) ⟨cx, cy, r, firstAngle, secondAngle⟩ := by
  have hne : pymod (secondAngle - firstAngle) 360 ≠ 0 := by
    intro hz; rw [hz] at h; norm_num at h
  unfold createOneWedgeGeo
  simp only [if_pos hne, if_pos h]

theorem createOneWedgeGeo_eq_clip (cx cy r firstAngle secondAngle : ℚ)
    (hne : pymod (secondAngle - firstAngle) 360 ≠ 0)
    (h : ¬180 < pymod (secondAngle - firstAngle) 360) :
    createOneWedgeGeo cx cy r firstAngle secondAngle
      = .clip (.circle cx cy r) ⟨cx, cy, r, firstAngle, secondAngle⟩ := by
  unfold createOneWedgeGeo
  simp only [if_pos hne, if_neg h]

/-- **C3**: for every wedge that reaches single-sector construction (the
sweep is not a zero residue mod 360, so the circle is not copied as a
full circle), the triangle is erased from the circle exactly when
`theta mod 360 > 180`, and otherwise — including exactly 180 — the
circle is clipped (intersected) with the triangle. -/
theorem clipOrErase_dispatch (cx cy r firstAngle secondAngle : ℚ)
    (h : pymod (secondAngle - firstAngle) 360 ≠ 0) :
    createOneWedgeGeo cx cy r firstAngle secondAngle
      = if 180 < pymod (secondAngle - firstAngle) 360 then
          .erase (.circle cx cy r) ⟨cx, cy, r, firstAngle, secondAngle⟩
        else
          .clip (.circle cx cy r) ⟨cx, cy, r, firstAngle, secondAngle⟩ := by
  by_cases h180 : 180 < pymod (secondAngle - firstAngle) 360
  · rw [if_pos h180]
    exact createOneWedgeGeo_eq_erase cx cy r firstAngle secondAngle h180
  · rw [if_neg h180]
    exact createOneWedgeGeo_eq_clip cx cy r firstAngle secondAngle h h180

theorem clipOrErase_dispatch_witness :
    pymod ((270 : ℚ) - 60) 360 ≠ 0 ∧
      createOneWedgeGeo 0 0 1000 60 270
        = if 180 < pymod ((270 : ℚ) - 60) 360 then
            .erase (.circle 0 0 1000) ⟨0, 0, 1000, 60, 270⟩
          else
            .clip (.circle 0 0 1000) ⟨0, 0, 1000, 60, 270⟩ :=
  ⟨by norm_num [pymod], clipOrErase_dispatch 0 0 1000 60 270 (by norm_num [pymod])⟩

/-! ## Wedge specifications and the per-wedge build of `createWedges` -/

/-- The optional seventh entry (`wedge[6]`) of one attribute list, as
tested by `createWedges` lines 557-558: present numeric value, Python
`None`, empty string, one-space string, or no seventh entry at all. -/
inductive InnerField where
  | absent
  | noneVal
  | blank
  | space
  | value (r2 : ℚ)
deriving DecidableEq, Repr

/-- One entry of `attributesList` (`createWedges` lines 447-456):
wedge number, center coordinates, the two bearings, outer radius in
metres, and the optional inner radius entry. -/
structure WedgeSpec where
  wedgeNumber : ℤ
  centerX : ℚ
  centerY : ℚ
  angleA : ℚ
  angleB : ℚ
  r1 : ℚ
  inner : InnerField
deriving DecidableEq, Repr

/-- `theta` of `createWedges` line 501: the sweep computed from the
reduced bearings. -/
def sweep (w : WedgeSpec) : ℚ :=
  pymod (pymod w.angleB 360 - pymod w.angleA 360) 360

/-- The split bearing of `createWedges` line 523:
`angleB = (angleA + theta/2) % 360` with `angleA` already reduced. -/
def midBearing (w : WedgeSpec) : ℚ :=
  pymod (pymod w.angleA 360 + sweep w / 2) 360

/-- The sector geometry produced by `createWedges` lines 517-549
(before the optional inner-radius trim): reduce the bearings
(lines 497-498), compute `theta` (line 501); when
`135 < theta % 360 < 225` build two half-sweep wedges at the midpoint
bearing, merge and dissolve them (lines 520-544); otherwise build one
wedge directly (line 548). -/
def sectorBase (w : WedgeSpec) : Geo :=
  let angleA := pymod w.angleA 360
  let angleB := pymod w.angleB 360
  let theta := pymod (angleB - angleA) 360
  if 135 < pymod theta 360 ∧ pymod theta 360 < 225 then
    let mid := pymod (angleA + theta / 2) 360
    let endAngle := pymod (mid + theta / 2) 360
    .dissolve (.merge (createOneWedgeGeo w.centerX w.centerY w.r1 angleA mid)
      (createOneWedgeGeo w.centerX w.centerY w.r1 mid endAngle))
  else
    createOneWedgeGeo w.centerX w.centerY w.r1 angleA angleB

/-- Lines 557-560: the `innerWedgeErase` trim runs only when the
attribute list has a seventh entry that is neither `None` nor `''` nor
`' '`; otherwise the sector passes through unchanged. -/
def buildOneWedge (w : WedgeSpec) : Geo :=
  match w.inner with
  | .value r2 => .innerErase (sectorBase w) w.centerX w.centerY r2
  | _ => sectorBase w

/-- The body of the `createWedges` loop for one wedge (lines 489-583):
`none` when the wedge is skipped as a zero-degree wedge (line 508),
otherwise the built geometry. -/
def processOneSpec (w : WedgeSpec) : Option Geo :=
  let booFullCircle := pymod (w.angleB - w.angleA) 360 = 0 ∧ w.angleB ≠ w.angleA
  let theta := pymod (pymod w.angleB 360 - pymod w.angleA 360) 360
  if theta = 0 ∧ ¬booFullCircle then none
  else some (buildOneWedge w)

/-- One iteration of the `createWedges` loop acting on the accumulator:
the merge list of `(Id, shape)` pairs (the `Id` field update of
lines 565-572 tags each shape with its `wedgeNumber`) and the running
`count` (incremented at line 511 for skipped wedges and at line 573
otherwise). -/
def wedgeStep (acc : List (ℤ × Geo) × ℕ) (w : WedgeSpec) : List (ℤ × Geo) × ℕ :=
  match processOneSpec w with
  | none => (acc.1, acc.2 + 1)
  | some g => (acc.1 ++ [(w.wedgeNumber, g)], acc.2 + 1)

/-- `createWedges` lines 463-587: fold the loop over `attributesList`
starting from an empty merge list and `count = 1`; the final
`Merge_management` (line 587) is modelled as the accumulated tagged
list itself. -/
def createWedgesGeo (specs : List WedgeSpec) : List (ℤ × Geo) × ℕ :=
  specs.foldl wedgeStep ([], 1)

theorem classify_nearHalfTurn {a b : ℚ} (h : classify a b = .NearHalfTurn) :
    135 < pymod (pymod b 360 - pymod a 360) 360
      ∧ pymod (pymod b 360 - pymod a 360) 360 < 225 := by
  simp only [classify] at h
  by_cases h2 : 135 < pymod (pymod b 360 - pymod a 360) 360
      ∧ pymod (pymod b 360 - pymod a 360) 360 < 225
  · exact h2
  · exfalso
    by_cases h1 : pymod (pymod b 360 - pymod a 360) 360 = 0
        ∧ ¬(pymod (b - a) 360 = 0 ∧ b ≠ a)
    · rw [if_pos h1] at h
      exact SectorCase.noConfusion h
    · rw [if_neg h1, if_neg h2] at h
      by_cases h3 : pymod (pymod b 360 - pymod a 360) 360 = 0
      · rw [if_pos h3] at h
        exact SectorCase.noConfusion h
      · rw [if_neg h3] at h
        exact SectorCase.noConfusion h

/-- **C2**: for every wedge classified `NearHalfTurn` (reduced sweep
strictly between 135 and 225 degrees) the builder splits at the
midpoint bearing `(startBearing + theta/2) mod 360` and invokes
single-sector construction exactly twice, on `[startBearing, mid]` and
`[mid, endBearing]` (bearings reduced into `[0, 360)`), each sub-sweep
equal to `theta/2` and at most 112.5 degrees; it merges the two
sub-sectors and dissolves them into one sector, and never constructs a
clip/erase triangle whose sweep is `theta` itself. -/
theorem nearHalfTurn_split (w : WedgeSpec)
    (h : classify w.angleA w.angleB = .NearHalfTurn) :
    sectorBase w
      = .dissolve (.merge
          (createOneWedgeGeo w.centerX w.centerY w.r1 (pymod w.angleA 360)
            (midBearing w))
          (createOneWedgeGeo w.centerX w.centerY w.r1 (midBearing w)
            (pymod w.angleB 360)))
    ∧ pymod (midBearing w - pymod w.angleA 360) 360 = sweep w / 2
    ∧ pymod (pymod w.angleB 360 - midBearing w) 360 = sweep w / 2
    ∧ sweep w / 2 ≤ 225 / 2
    ∧ triSweeps (sectorBase w) = [sweep w / 2, sweep w / 2]
    ∧ sweep w ∉ triSweeps (sectorBase w) := by
  have hb := classify_nearHalfTurn h
  have h135 : 135 < sweep w := hb.1
  have h225 : sweep w < 225 := hb.2
  have hθnn : 0 ≤ sweep w := pymod_nonneg _
  have hhalf0 : 0 ≤ sweep w / 2 := by linarith
  have hhalf1 : sweep w / 2 < 360 := by linarith
  -- the first sub-sweep
  have hmid_sub : pymod (midBearing w - pymod w.angleA 360) 360 = sweep w / 2 := by
    unfold midBearing
    rw [pymod_reduce_sub_left]
    have harg : pymod w.angleA 360 + sweep w / 2 - pymod w.angleA 360
        = sweep w / 2 := by ring
    rw [harg, pymod_eq_self hhalf0 hhalf1]
  -- the second split bearing is the reduced end bearing
  have hend : pymod (midBearing w + sweep w / 2) 360 = pymod w.angleB 360 := by
    unfold midBearing
    rw [pymod_reduce_add_left]
    have harg : pymod w.angleA 360 + sweep w / 2 + sweep w / 2
        = pymod w.angleA 360 + sweep w := by ring
    rw [harg]
    unfold sweep
    rw [pymod_reduce_add_right]
    have harg2 : pymod w.angleA 360 + (pymod w.angleB 360 - pymod w.angleA 360)
        = pymod w.angleB 360 := by ring
    rw [harg2, pymod_idem]
  -- the second sub-sweep
  have hb_sub : pymod (pymod w.angleB 360 - midBearing w) 360 = sweep w / 2 := by
    rw [← hend, pymod_reduce_sub_left]
    have harg : midBearing w + sweep w / 2 - midBearing w = sweep w / 2 := by ring
    rw [harg, pymod_eq_self hhalf0 hhalf1]
  -- both sub-calls take the clip branch
  have hc1 : createOneWedgeGeo w.centerX w.centerY w.r1 (pymod w.angleA 360)
      (midBearing w)
      = .clip (.circle w.centerX w.centerY w.r1)
          ⟨w.centerX, w.centerY, w.r1, pymod w.angleA 360, midBearing w⟩ := by
    apply createOneWedgeGeo_eq_clip
    · rw [hmid_sub]; intro hz; linarith
    · rw [hmid_sub]; intro hgt; linarith
  have hc2 : createOneWedgeGeo w.centerX w.centerY w.r1 (midBearing w)
      (pymod w.angleB 360)
      = .clip (.circle w.centerX w.centerY w.r1)
          ⟨w.centerX, w.centerY, w.r1, midBearing w, pymod w.angleB 360⟩ := by
    apply createOneWedgeGeo_eq_clip
    · rw [hb_sub]; intro hz; linarith
    · rw [hb_sub]; intro hgt; linarith
  -- the split branch of `sectorBase` fires
  have hbase : sectorBase w
      = .dissolve (.merge
          (createOneWedgeGeo w.centerX w.centerY w.r1 (pymod w.angleA 360)
            (midBearing w))
          (createOneWedgeGeo w.centerX w.centerY w.r1 (midBearing w)
            (pymod w.angleB 360))) := by
    have hcond : 135 < pymod (pymod (pymod w.angleB 360 - pymod w.angleA 360) 360) 360
        ∧ pymod (pymod (pymod w.angleB 360 - pymod w.angleA 360) 360) 360 < 225 := by
      rw [pymod_idem]
      exact ⟨h135, h225⟩
    simp only [sectorBase]
    rw [if_pos hcond]
    have hendAngle : pymod (pymod (pymod w.angleA 360
          + pymod (pymod w.angleB 360 - pymod w.angleA 360) 360 / 2) 360
          + pymod (pymod w.angleB 360 - pymod w.angleA 360) 360 / 2) 360
        = pymod w.angleB 360 := hend
    rw [hendAngle]
    rfl
  refine ⟨hbase, hmid_sub, hb_sub, by linarith, ?_, ?_⟩
  · rw [hbase, hc1, hc2]
    simp only [triSweeps, List.nil_append, List.singleton_append]
    rw [hmid_sub, hb_sub]
  · rw [hbase, hc1, hc2]
    simp only [triSweeps, List.nil_append, List.singleton_append]
    rw [hmid_sub, hb_sub]
    intro hmem
    have hcontra : sweep w = sweep w / 2 := by
      rcases List.mem_cons.mp hmem with h1 | h1
      · exact h1
      · rcases List.mem_cons.mp h1 with h2 | h2
        · exact h2
        · exact absurd h2 (List.not_mem_nil _)
    linarith

theorem nearHalfTurn_split_witness :
    classify (10 : ℚ) 200 = .NearHalfTurn ∧
      triSweeps (sectorBase ⟨1, 0, 0, 10, 200, 1000, .absent⟩)
        = [sweep ⟨1, 0, 0, 10, 200, 1000, .absent⟩ / 2,
           sweep ⟨1, 0, 0, 10, 200, 1000, .absent⟩ / 2] :=
  ⟨by norm_num [classify, pymod],
   (nearHalfTurn_split ⟨1, 0, 0, 10, 200, 1000, .absent⟩
      (by norm_num [classify, pymod])).2.2.2.2.1⟩

/-! ## Batch accounting (`createWedges` as a whole) -/

theorem createWedgesGeo_foldl (specs : List WedgeSpec) :
    ∀ (acc : List (ℤ × Geo)) (c : ℕ),
      specs.foldl wedgeStep (acc, c)
        = (acc ++ specs.filterMap
            (fun w => (processOneSpec w).map (fun g => (w.wedgeNumber, g))),
           c + specs.length) := by
  induction specs with
  | nil => intro acc c; simp
  | cons w rest ih =>
    intro acc c
    rw [List.foldl_cons]
    cases hpw : processOneSpec w with
    | none =>
      rw [show wedgeStep (acc, c) w = (acc, c + 1) by
        unfold wedgeStep; rw [hpw]]
      rw [ih acc (c + 1)]
      simp only [List.filterMap_cons, hpw, Option.map_none', List.length_cons,
        Prod.mk.injEq]
      exact ⟨trivial, by omega⟩
    | some g =>
      rw [show wedgeStep (acc, c) w = (acc ++ [(w.wedgeNumber, g)], c + 1) by
        unfold wedgeStep; rw [hpw]]
      rw [ih _ (c + 1)]
      simp only [List.filterMap_cons, hpw, Option.map_some', List.length_cons,
        List.append_assoc, List.singleton_append, Prod.mk.injEq]
      exact ⟨trivial, by omega⟩

theorem processOneSpec_eq_none_iff (w : WedgeSpec) :
    processOneSpec w = none ↔ classify w.angleA w.angleB = .ZeroDegree := by
  simp only [processOneSpec, classify]
  by_cases h1 : pymod (pymod w.angleB 360 - pymod w.angleA 360) 360 = 0
      ∧ ¬(pymod (w.angleB - w.angleA) 360 = 0 ∧ w.angleB ≠ w.angleA)
  · rw [if_pos h1, if_pos h1]
    simp
  · rw [if_neg h1, if_neg h1]
    constructor
    · intro hcontra
      exact absurd hcontra (Option.some_ne_none _)
    · intro hcontra
      exfalso
      split_ifs at hcontra

theorem createWedgesGeo_ids (specs : List WedgeSpec) :
    (createWedgesGeo specs).1.map Prod.fst
      = (specs.filter (fun w => (processOneSpec w).isSome)).map
          WedgeSpec.wedgeNumber := by
  rw [show createWedgesGeo specs
      = (specs.filterMap
          (fun w => (processOneSpec w).map (fun g => (w.wedgeNumber, g))),
         1 + specs.length) from createWedgesGeo_foldl specs [] 1]
  induction specs with
  | nil => rfl
  | cons x rest ih =>
    cases hx : processOneSpec x with
    | none => simp [List.filterMap_cons, List.filter_cons, hx, ih]
    | some g => simp [List.filterMap_cons, List.filter_cons, hx, ih]

/-- **C5**: with pairwise-distinct wedge numbers, the `Id` attribute of
every wedge not classified `ZeroDegree` appears exactly once in the
merged output list, a `ZeroDegree` wedge contributes no shape (its id
appears zero times), and the per-wedge counter still advances for every
wedge: it ends at `1 + length`. -/
theorem batch_id_roundtrip (specs : List WedgeSpec) (w : WedgeSpec)
    (hmem : w ∈ specs)
    (hnodup : (specs.map WedgeSpec.wedgeNumber).Nodup) :
    (createWedgesGeo specs).2 = specs.length + 1
    ∧ (classify w.angleA w.angleB = .ZeroDegree →
        ((createWedgesGeo specs).1.map Prod.fst).count w.wedgeNumber = 0)
    ∧ (classify w.angleA w.angleB ≠ .ZeroDegree →
        ((createWedgesGeo specs).1.map Prod.fst).count w.wedgeNumber = 1) := by
  have hsnd : (createWedgesGeo specs).2 = specs.length + 1 := by
    rw [show createWedgesGeo specs
        = (specs.filterMap
            (fun w => (processOneSpec w).map (fun g => (w.wedgeNumber, g))),
           1 + specs.length) from createWedgesGeo_foldl specs [] 1]
    simp [Nat.add_comm]
  have hids := createWedgesGeo_ids specs
  have hsub : List.Sublist
      ((specs.filter (fun w => (processOneSpec w).isSome)).map
        WedgeSpec.wedgeNumber)
      (specs.map WedgeSpec.wedgeNumber) :=
    (List.filter_sublist specs).map WedgeSpec.wedgeNumber
  have hnodup2 := hsub.nodup hnodup
  refine ⟨hsnd, ?_, ?_⟩
  · intro hzero
    have hnone : processOneSpec w = none :=
      (processOneSpec_eq_none_iff w).mpr hzero
    rw [hids]
    rw [List.count_eq_zero]
    intro hmem2
    obtain ⟨w2, hw2mem, hw2eq⟩ := List.mem_map.mp hmem2
    have hw2specs : w2 ∈ specs := (List.mem_filter.mp hw2mem).1
    have hw2some : ((processOneSpec w2).isSome : Bool) = true :=
      (List.mem_filter.mp hw2mem).2
    have hweq : w2 = w :=
      List.inj_on_of_nodup_map hnodup hw2specs hmem hw2eq
    rw [hweq, hnone] at hw2some
    exact Bool.noConfusion hw2some
  · intro hnz
    have hsome : ((processOneSpec w).isSome : Bool) = true := by
      cases hpw : processOneSpec w with
      | none => exact absurd ((processOneSpec_eq_none_iff w).mp hpw) hnz
      | some g => rfl
    have hmemf : w ∈ specs.filter (fun w => (processOneSpec w).isSome) :=
      List.mem_filter.mpr ⟨hmem, hsome⟩
    have hmemid : w.wedgeNumber ∈ (specs.filter
        (fun w => (processOneSpec w).isSome)).map WedgeSpec.wedgeNumber :=
      List.mem_map_of_mem WedgeSpec.wedgeNumber hmemf
    rw [hids]
    have hle := List.nodup_iff_count_le_one.mp hnodup2 w.wedgeNumber
    have hpos := List.count_pos_iff.mpr hmemid
    omega

def demoBatch : List WedgeSpec :=
  [⟨1, 0, 0, 0, 90, 1000, .absent⟩, ⟨2, 0, 0, 120, 120, 500, .absent⟩]

theorem batch_id_roundtrip_witness :
    ((createWedgesGeo demoBatch).1.map Prod.fst).count 1 = 1 :=
  (batch_id_roundtrip demoBatch ⟨1, 0, 0, 0, 90, 1000, .absent⟩
    (by simp [demoBatch])
    (by simp [demoBatch]))
    |>.2.2 (by
      show classify (0 : ℚ) 90 ≠ SectorCase.ZeroDegree
      have hclass : classify (0 : ℚ) 90 = .Standard := by
        norm_num [classify, pymod]
      rw [hclass]
      decide)

/-! ## Triangle vertex computation (`createOneWedge` lines 143-246) -/

/-- The clip/erase triangle ring exactly as `createOneWedge` computes
it: `theta` is taken in degrees (line 143) and converted by
`math.radians` (line 165), as are the two bearings (lines 163-164);
`hyp = fabs(r / cos(theta/2))` (line 187); the vertex coordinates use
`fabs(hyp) * sin/cos` of the radian bearings (lines 196-199); the ring
is center, point A, point B, and the center again to close the
triangle (lines 228-240). -/
noncomputable def triangleRing (centerX centerY r firstAngle secondAngle : ℝ) :
    List (ℝ × ℝ) :=
  let theta := radiansR (secondAngle - firstAngle)
  let fa := radiansR firstAngle
  let sa := radiansR secondAngle
  let hyp := |r / Real.cos (theta / 2)|
  let ptAX := centerX + |hyp| * Real.sin fa
  let ptAY := centerY + |hyp| * Real.cos fa
  let ptBX := centerX + |hyp| * Real.sin sa
  let ptBY := centerY + |hyp| * Real.cos sa
  [(centerX, centerY), (ptAX, ptAY), (ptBX, ptBY), (centerX, centerY)]

/-- Modelled from the spec's words (§4.1 `triangleVertices` and the
ring-closure sentence): bearings already in radians,
`theta = endBearing - startBearing`,
`hyp = |outerRadius / cos(theta/2)|`, the two outer vertices from
`|hyp|·sin/cos`, and the ring closed by repeating the center point as
the final vertex.  Used only to compare against `triangleRing`. -/
noncomputable def specTriangleRing
    (centerX centerY outerRadius startBearing endBearing : ℝ) :
    List (ℝ × ℝ) :=
  let theta := endBearing - startBearing
  let hyp := |outerRadius / Real.cos (theta / 2)|
  [(centerX, centerY),
   (centerX + |hyp| * Real.sin startBearing,
    centerY + |hyp| * Real.cos startBearing),
   (centerX + |hyp| * Real.sin endBearing,
    centerY + |hyp| * Real.cos endBearing),
   (centerX, centerY)]

/-- **C4**: for every center, radius and pair of bearings, the triangle
ring computed by `createOneWedge` (degree inputs, converted internally
to radians) is exactly the ring the spec prescribes on the radian
bearings: outer vertices at
`(centerX + |hyp|·sin(bearing), centerY + |hyp|·cos(bearing))` with
`hyp = |r / cos(theta/2)|`, `theta = endBearing - startBearing`, and
the ring `(center, pointA, pointB)` closed by repeating the center. -/
theorem triangle_matches_spec (centerX centerY r firstAngle secondAngle : ℝ) :
    triangleRing centerX centerY r firstAngle secondAngle
      = specTriangleRing centerX centerY r (radiansR firstAngle)
          (radiansR secondAngle) := by
  simp only [triangleRing, specTriangleRing]
  have h : radiansR (secondAngle - firstAngle)
      = radiansR secondAngle - radiansR firstAngle := by
    unfold radiansR; ring
  rw [h]

/-! ## Radius parsing (`parseRadius`, lines 286-365) and the attribute
read loop of `processWedges` (lines 741-786) -/

/-- The whitespace characters Python `str.split()` splits on. -/
def pyIsSpace (c : Char) : Bool :=
  c == ' ' || c == '\t' || c == '\n' || c == '\r' || c == '\x0B' || c == '\x0C'

/-- Split a character list at every whitespace character, keeping empty
fields (they are filtered out in `pySplit`, giving Python `split()`
semantics). -/
def splitOnWs : List Char → List Char → List (List Char)
  | [], acc => [acc.reverse]
  | c :: rest, acc =>
    if pyIsSpace c then acc.reverse :: splitOnWs rest []
    else splitOnWs rest (c :: acc)

/-- Python `textRadius.split()` (line 307): split on whitespace runs,
dropping empty fields. -/
def pySplit (s : String) : List String :=
  ((splitOnWs s.toList []).map (fun cs => String.mk cs)).filter
    (fun t => t != "")

/-- The digit/decimal-point loop of lines 315-325: every character a
digit, with at most one decimal point; anything else fails. -/
def numOk : List Char → Bool → Bool
  | [], _ => true
  | c :: rest, foundDecimalPoint =>
    if c = '.' then
      if foundDecimalPoint then false else numOk rest true
    else if c.isDigit then numOk rest foundDecimalPoint
    else false

/-- The ten unit spellings accepted by the whitelist test at
lines 328-332. -/
def unitNames : List String :=
  ["CENTIMETERS", "DECIMETERS", "FEET", "INCHES", "KILOMETERS",
   "METERS", "MILES", "MILLIMETERS", "NAUTICALMILES", "YARDS"]

/-- Python `str.upper()` on ASCII text. -/
def pyUpper (s : String) : String := String.mk (s.toList.map Char.toUpper)

/-- The natural number denoted by a list of ASCII digits. -/
def digitsVal (cs : List Char) : ℕ :=
  cs.foldl (fun n c => 10 * n + (c.toNat - 48)) 0

/-- Python `float()` on the number part, exact over `ℚ`, for the shapes
the digit check admits: digits with at most one decimal point.  On the
sole degenerate admitted shape `"."`, `float` raises `ValueError`,
the `except` handler of lines 361-365 runs, and the call yields
`None`. -/
def pyFloat (s : String) : Option ℚ :=
  let cs := s.toList
  let intPart := cs.takeWhile (fun c => c != '.')
  match cs.dropWhile (fun c => c != '.') with
  | [] => if cs.isEmpty then none else some (digitsVal cs)
  | _ :: fracPart =>
    if intPart.isEmpty && fracPart.isEmpty then none
    else some ((digitsVal intPart : ℚ)
      + (digitsVal fracPart : ℚ) / (10 : ℚ) ^ fracPart.length)

/-- The unit conversion chain of lines 336-357, with the
`float(radiusParts[0])` conversion hoisted out as `x`: each whitelisted
unit branch multiplies by its fixed metres-per-unit factor; if none of
the ten matched, the `sInputUnits == 'Foot_US'` arm at lines 356-357
reads the never-assigned local `radius` (`NameError`, handler returns
`None`), and the fall-through `return radius` likewise raises
(`None`). -/
def unitDispatch (up : String) (sInputUnits : String) (x : ℚ) : Option ℚ :=
  if up = "CENTIMETERS" then some (x * (1 / 100))
  else if up = "DECIMETERS" then some (x * (1 / 10))
  else if up = "FEET" then some (x * (3048 / 10000))
  else if up = "INCHES" then some (x * (254 / 10000))
  else if up = "KILOMETERS" then some (x * 1000)
  else if up = "METERS" then some (x * 1)
  else if up = "MILES" then some (x * (1609344 / 1000))
  else if up = "MILLIMETERS" then some (x * (1 / 1000))
  else if up = "NAUTICALMILES" then some (x * 1852)
  else if up = "YARDS" then some (x * (9144 / 10000))
  else if sInputUnits = "Foot_US" then none
  else none

/-- The ten-unit factor table: `some` exactly on the whitelisted unit
spellings, with the metres-per-unit factor of lines 336-355. -/
def tenFactor (up : String) : Option ℚ :=
  if up = "CENTIMETERS" then some (1 / 100)
  else if up = "DECIMETERS" then some (1 / 10)
  else if up = "FEET" then some (3048 / 10000)
  else if up = "INCHES" then some (254 / 10000)
  else if up = "KILOMETERS" then some 1000
  else if up = "METERS" then some 1
  else if up = "MILES" then some (1609344 / 1000)
  else if up = "MILLIMETERS" then some (1 / 1000)
  else if up = "NAUTICALMILES" then some 1852
  else if up = "YARDS" then some (9144 / 10000)
  else none

/-- `parseRadius` (lines 286-365): split the text; require exactly two
parts (lines 310-311); run the digit check on the number part
(lines 315-325); check the unit whitelist (lines 328-332); convert
(lines 336-359).  Any failure yields `None`. -/
def parseRadius (textRadius : String) (sInputUnits : String) : Option ℚ :=
  match pySplit textRadius with
  | [numberPart, unitPart] =>
    if numOk numberPart.toList false then
      if pyUpper unitPart ∈ unitNames then
        match pyFloat numberPart with
        | some x => unitDispatch (pyUpper unitPart) sInputUnits x
        | none => none
      else none
    else none
  | _ => none

/-- One row read by the `processWedges` search cursor (lines 741-751):
object id, the coordinates, the two bearings, the outer radius text,
and the inner radius text (consulted only when the optional inner
radius field exists). -/
structure InputRow where
  oid : ℤ
  x : ℚ
  y : ℚ
  angleA : ℚ
  angleB : ℚ
  r1text : String
  r2text : String
deriving DecidableEq, Repr

/-- The per-row body of the `processWedges` read loop (lines 741-783):
parse the outer radius (line 754; a `None` result prints an error and
`return`s from `processWedges`, modelled as `none`); when the inner
radius field exists (`gotRadius2`), map the values `''` and `' '` to
the blank marker (lines 766-768) and otherwise parse, again aborting
on failure (lines 770-776). -/
def rowToSpec (gotRadius2 : Bool) (sInputUnits : String) (row : InputRow) :
    Option WedgeSpec :=
  match parseRadius row.r1text sInputUnits with
  | none => none
  | some r1 =>
    if gotRadius2 then
      if row.r2text = "" ∨ row.r2text = " " then
        some ⟨row.oid, row.x, row.y, row.angleA, row.angleB, r1, .blank⟩
      else
        match parseRadius row.r2text sInputUnits with
        | none => none
        | some r2 =>
          some ⟨row.oid, row.x, row.y, row.angleA, row.angleB, r1, .value r2⟩
    else some ⟨row.oid, row.x, row.y, row.angleA, row.angleB, r1, .absent⟩

/-- The whole read loop of `processWedges`: the first formatting error
`return`s from the procedure with no output at all (lines 757-760 and
772-776); otherwise the accumulated `attributesList`. -/
def buildAttributesList (gotRadius2 : Bool) (sInputUnits : String) :
    List InputRow → Option (List WedgeSpec)
  | [] => some []
  | row :: rest =>
    match rowToSpec gotRadius2 sInputUnits row with
    | none => none
    | some s =>
      match buildAttributesList gotRadius2 sInputUnits rest with
      | none => none
      | some l => some (s :: l)

theorem unitDispatch_of_mem {up : String} (h : up ∈ unitNames)
    (sInputUnits : String) (x : ℚ) :
    unitDispatch up sInputUnits x = (tenFactor up).map (fun f => x * f) := by
  simp only [unitNames, List.mem_cons, List.not_mem_nil, or_false] at h
  rcases h with h | h | h | h | h | h | h | h | h | h <;> subst h <;> rfl

theorem tenFactor_of_mem {up : String} (h : up ∈ unitNames) :
    ∃ f, tenFactor up = some f := by
  simp only [unitNames, List.mem_cons, List.not_mem_nil, or_false] at h
  rcases h with h | h | h | h | h | h | h | h | h | h <;> subst h <;>
    exact ⟨_, rfl⟩

theorem parseRadius_indep (textRadius u u' : String) :
    parseRadius textRadius u = parseRadius textRadius u' := by
  rcases hsplit : pySplit textRadius with _ | ⟨np, _ | ⟨upart, _ | ⟨c, rest⟩⟩⟩
  · simp only [parseRadius, hsplit]
  · simp only [parseRadius, hsplit]
  · simp only [parseRadius, hsplit]
    by_cases hnum : numOk np.toList false = true
    · rw [if_pos hnum, if_pos hnum]
      by_cases hupper : pyUpper upart ∈ unitNames
      · rw [if_pos hupper, if_pos hupper]
        cases hfl : pyFloat np with
        | none => rfl
        | some x =>
          show unitDispatch (pyUpper upart) u x
            = unitDispatch (pyUpper upart) u' x
          rw [unitDispatch_of_mem hupper, unitDispatch_of_mem hupper]
      · rw [if_neg hupper, if_neg hupper]
    · rw [if_neg hnum, if_neg hnum]
  · simp only [parseRadius, hsplit]

theorem parseRadius_shape (textRadius u : String) :
    parseRadius textRadius u = none
    ∨ ∃ numberPart unitPart x f,
        pySplit textRadius = [numberPart, unitPart]
        ∧ pyFloat numberPart = some x
        ∧ tenFactor (pyUpper unitPart) = some f
        ∧ parseRadius textRadius u = some (x * f) := by
  rcases hsplit : pySplit textRadius with _ | ⟨np, _ | ⟨upart, _ | ⟨c, rest⟩⟩⟩
  · exact Or.inl (by simp only [parseRadius, hsplit])
  · exact Or.inl (by simp only [parseRadius, hsplit])
  · by_cases hnum : numOk np.toList false = true
    · by_cases hupper : pyUpper upart ∈ unitNames
      · cases hfl : pyFloat np with
        | none =>
          refine Or.inl ?_
          simp only [parseRadius, hsplit, hfl]
          rw [if_pos hnum, if_pos hupper]
        | some x =>
          obtain ⟨f, hf⟩ := tenFactor_of_mem hupper
          refine Or.inr ⟨np, upart, x, f, rfl, hfl, hf, ?_⟩
          simp only [parseRadius, hsplit, hfl]
          rw [if_pos hnum, if_pos hupper]
          show unitDispatch (pyUpper upart) u x = some (x * f)
          rw [unitDispatch_of_mem hupper, hf]
          rfl
      · refine Or.inl ?_
        simp only [parseRadius, hsplit]
        rw [if_pos hnum, if_neg hupper]
    · refine Or.inl ?_
      simp only [parseRadius, hsplit]
      rw [if_neg hnum]
  · exact Or.inl (by simp only [parseRadius, hsplit])

theorem pyFloat_nonneg {s : String} {x : ℚ} (h : pyFloat s = some x) :
    0 ≤ x := by
  rcases hdrop : List.dropWhile (fun c => c != '.') s.toList
      with _ | ⟨c, fracPart⟩
  · simp only [pyFloat, hdrop] at h
    split_ifs at h
    all_goals
      first
        | exact Option.noConfusion h
        | (injection h with hx; rw [← hx]; positivity)
  · simp only [pyFloat, hdrop] at h
    split_ifs at h
    all_goals
      first
        | exact Option.noConfusion h
        | (injection h with hx; rw [← hx]; positivity)

theorem tenFactor_pos {up : String} {f : ℚ} (h : tenFactor up = some f) :
    0 < f := by
  simp only [tenFactor] at h
  split_ifs at h <;>
    first
      | exact Option.noConfusion h
      | (injection h with hf; rw [← hf]; norm_num)

theorem parseRadius_nonneg {t u : String} {x : ℚ}
    (h : parseRadius t u = some x) : 0 ≤ x := by
  rcases parseRadius_shape t u with hnone | ⟨np, upart, x0, f, _, hfl, htf, heq⟩
  · rw [hnone] at h
    exact Option.noConfusion h
  · rw [heq] at h
    injection h with hx
    rw [← hx]
    exact mul_nonneg (pyFloat_nonneg hfl) (le_of_lt (tenFactor_pos htf))

/-- **C10**: for every input string `parseRadius` either returns `None`
or `float(numberPart)` times the fixed conversion factor of exactly one
of the ten whitelisted units, and its result never depends on
`sInputUnits`: the only `sInputUnits`-dependent arm — the final
`Foot_US` branch, which reads the local `radius` before any
assignment — is unreachable, because a unit outside the whitelist
already caused a `None` return before the dispatch chain and every
whitelisted spelling matches one of the ten unit arms first. -/
theorem parseRadius_characterization (textRadius u u' : String) :
    parseRadius textRadius u = parseRadius textRadius u'
    ∧ (parseRadius textRadius u = none
        ∨ ∃ numberPart unitPart x f,
            pySplit textRadius = [numberPart, unitPart]
            ∧ pyFloat numberPart = some x
            ∧ tenFactor (pyUpper unitPart) = some f
            ∧ parseRadius textRadius u = some (x * f))
    ∧ (∀ up, up ∈ unitNames → (tenFactor up).isSome = true) :=
  ⟨parseRadius_indep textRadius u u', parseRadius_shape textRadius u,
   fun up hup => by
    obtain ⟨f, hf⟩ := tenFactor_of_mem hup
    rw [hf]
    rfl⟩

theorem parseRadius_characterization_witness :
    parseRadius "5 METERS" "Meter" = parseRadius "5 METERS" "Foot_US"
    ∧ (tenFactor "METERS").isSome = true :=
  ⟨(parseRadius_characterization "5 METERS" "Meter" "Foot_US").1,
   (parseRadius_characterization "5 METERS" "Meter" "Foot_US").2.2
     "METERS" (by decide)⟩

/-! ## The inner-radius blank policy and the batch abort policy -/

/-- **C6 (counterexample)**: an inner-radius value that is
whitespace-only but neither `''` nor `' '` — here two spaces — is not
treated as "no arcband": it reaches `parseRadius` (line 770), which
fails on it, and the whole run aborts with a formatting error
(lines 772-776), so the value is treated as an error, contrary to the
claim. -/
theorem whitespace_inner_radius_aborts :
    buildAttributesList true "Meter" [⟨1, 0, 0, 0, 90, "5 METERS", "  "⟩]
      = none := by decide

/-- **C6 (amended)**: an inner-radius entry that is absent, `None`, the
empty string or the one-space string makes the arcband trim be skipped
entirely — the sector passes through unchanged — and on the read side
exactly the two values `''` and `' '` are mapped to the blank marker
rather than treated as errors; any other whitespace-only value is a
formatting error that aborts the run (see the counterexample). -/
theorem blank_inner_skips_trim :
    (∀ w : WedgeSpec, (∀ r2, w.inner ≠ .value r2) →
      buildOneWedge w = sectorBase w)
    ∧ (∀ (sInputUnits : String) (row : InputRow) (r1 : ℚ),
        parseRadius row.r1text sInputUnits = some r1 →
        (row.r2text = "" ∨ row.r2text = " ") →
        rowToSpec true sInputUnits row
          = some ⟨row.oid, row.x, row.y, row.angleA, row.angleB, r1,
              .blank⟩) := by
  constructor
  · intro w h
    cases hw : w.inner with
    | absent => simp [buildOneWedge, hw]
    | noneVal => simp [buildOneWedge, hw]
    | blank => simp [buildOneWedge, hw]
    | space => simp [buildOneWedge, hw]
    | value r2 => exact absurd hw (h r2)
  · intro u row r1 hparse hblank
    cases hp : parseRadius row.r1text u with
    | none =>
      rw [hp] at hparse
      exact Option.noConfusion hparse
    | some r1x =>
      rw [hp] at hparse
      have hr : r1x = r1 := by injection hparse
      subst hr
      simp only [rowToSpec, hp]
      rw [if_pos hblank, if_pos trivial]

theorem blank_inner_skips_trim_witness :
    buildOneWedge ⟨1, 0, 0, 0, 90, 1000, .blank⟩
      = sectorBase ⟨1, 0, 0, 0, 90, 1000, .blank⟩ :=
  blank_inner_skips_trim.1 ⟨1, 0, 0, 0, 90, 1000, .blank⟩
    (fun _ h => InnerField.noConfusion h)

/-- **C7 (counterexample)**: a spec whose outer radius is the text
`"0 METERS"` — so `outerRadius <= 0` after parsing — is not rejected:
`parseRadius` accepts it with value `0` and the row enters the
attribute list; no positivity check exists anywhere on the path. -/
theorem zero_outer_radius_not_rejected :
    parseRadius "0 METERS" "Meter" = some (((0 : ℕ) : ℚ) * 1)
    ∧ (((0 : ℕ) : ℚ) * 1 = 0)
    ∧ (buildAttributesList false "Meter"
        [⟨1, 0, 0, 0, 90, "0 METERS", ""⟩]).isSome = true :=
  ⟨rfl, by norm_num, by decide⟩

/-- **C7 (amended)**: processing rejects a row exactly when a radius
field fails the textual format validation (the reported index is the
running feature count, lines 757-760 and 772-776) — never because of
the numeric values: every parsed radius is nonnegative by construction
(the digit grammar admits no sign), there is no positivity check, and
no comparison between inner and outer radius is performed, so a zero
outer radius or an inner radius at least the outer one flows on to
geometry construction instead of being rejected. -/
theorem format_only_validation :
    (∀ (gotRadius2 : Bool) (sInputUnits : String) (row : InputRow),
      rowToSpec gotRadius2 sInputUnits row = none
        ↔ (parseRadius row.r1text sInputUnits = none
            ∨ (gotRadius2 = true ∧ ¬(row.r2text = "" ∨ row.r2text = " ")
               ∧ parseRadius row.r2text sInputUnits = none)))
    ∧ (∀ (t u : String) (x : ℚ), parseRadius t u = some x → 0 ≤ x) := by
  constructor
  · intro g u row
    cases hp : parseRadius row.r1text u with
    | none =>
      simp only [rowToSpec, hp]
      simp
    | some r1 =>
      cases g with
      | false =>
        simp only [rowToSpec, hp, Bool.false_eq_true, if_false]
        constructor
        · intro hcon
          exact Option.noConfusion hcon
        · rintro (hcon | ⟨hcon, -, -⟩)
          · exact Option.noConfusion hcon
          · exact hcon.elim
      | true =>
        simp only [rowToSpec, hp, if_true]
        by_cases hb : row.r2text = "" ∨ row.r2text = " "
        · rw [if_pos hb]
          constructor
          · intro hcon
            exact Option.noConfusion hcon
          · rintro (hcon | ⟨-, hnb, -⟩)
            · exact Option.noConfusion hcon
            · exact absurd hb hnb
        · rw [if_neg hb]
          cases hp2 : parseRadius row.r2text u with
          | none =>
            constructor
            · intro _
              exact Or.inr ⟨trivial, hb, rfl⟩
            · intro _
              rfl
          | some r2 =>
            constructor
            · intro hcon
              exact Option.noConfusion hcon
            · rintro (hcon | ⟨-, -, hcon⟩)
              · exact Option.noConfusion hcon
              · exact Option.noConfusion hcon
  · intro t u x h
    exact parseRadius_nonneg h

theorem format_only_validation_witness :
    (0 : ℚ) ≤ ((5 : ℕ) : ℚ) * 1 :=
  format_only_validation.2 "5 METERS" "Meter" (((5 : ℕ) : ℚ) * 1) rfl

/-- **C8 (counterexample)**: a batch whose first row has a malformed
radius and whose second row is individually valid produces no output
at all — the run halts at the first failing spec with nothing
accumulated and nothing reported at the end, contrary to the claim. -/
theorem first_failure_aborts_batch :
    buildAttributesList false "Meter"
      [⟨1, 0, 0, 0, 90, "BAD", ""⟩, ⟨2, 0, 0, 0, 90, "5 METERS", ""⟩] = none
    ∧ (rowToSpec false "Meter" ⟨2, 0, 0, 0, 90, "5 METERS", ""⟩).isSome
        = true :=
  ⟨by decide, by decide⟩

/-- **C8 (amended)**: a radius-format failure on any one row aborts the
whole read loop with an immediate `return` (lines 757-760, 772-776):
the batch yields no output at all, results for the other, independent
rows are not produced, and no list of failures is accumulated or
reported at the end. -/
theorem single_failure_kills_batch (gotRadius2 : Bool) (sInputUnits : String)
    (pre : List InputRow) (bad : InputRow) (suf : List InputRow)
    (h : rowToSpec gotRadius2 sInputUnits bad = none) :
    buildAttributesList gotRadius2 sInputUnits (pre ++ bad :: suf) = none := by
  induction pre with
  | nil => simp only [List.nil_append, buildAttributesList, h]
  | cons r rest ih =>
    show (match rowToSpec gotRadius2 sInputUnits r with
      | none => none
      | some s =>
        match buildAttributesList gotRadius2 sInputUnits (rest ++ bad :: suf) with
        | none => none
        | some l => some (s :: l)) = none
    cases hr : rowToSpec gotRadius2 sInputUnits r with
    | none => rfl
    | some s => rw [ih]

/-! ## Workspace lifecycle of `createOneWedge` (lines 249-283) -/

/-- Workspace-level model of `createOneWedge`: the `in_memory`
workspace is a list of dataset names.  `Buffer_analysis` (line 250)
creates `in_memory\circle`; the Clip/Erase/CopyFeatures call
(lines 262-268) creates the output wedge — unless the backend raises
(`opFails`), in which case control transfers to the `except` handler
(lines 279-283), which deletes nothing and returns `None`; on success,
line 273 deletes the circle (`List.erase`) and the wedge path is
returned. -/
def createOneWedgeWS (outWedgeName : String) (opFails : Bool)
    (ws : List String) : Option String × List String :=
  let ws1 := "in_memory\\circle" :: ws
  let outWedge := "in_memory\\" ++ outWedgeName
  if opFails then (none, ws1)
  else (some outWedge, (outWedge :: ws1).erase "in_memory\\circle")

/-- **C9 (counterexample)**: when the clip/erase backend call raises,
the failure exit path releases nothing: the intermediate circle is
still in the workspace when the function returns, so intermediates are
not released on every exit path. -/
theorem failure_path_leaks_circle :
    createOneWedgeWS "oWedge" true [] = (none, ["in_memory\\circle"]) := rfl

/-- **C9 (amended)**: on the normal (non-raising) path every
intermediate is released before the build step returns — relative to
the entry workspace only the returned wedge remains — but on the
exception path the handler performs no cleanup and the intermediate
circle persists (see the counterexample). -/
theorem success_path_releases_intermediates (outWedgeName : String)
    (ws : List String)
    (hname : "in_memory\\" ++ outWedgeName ≠ "in_memory\\circle") :
    createOneWedgeWS outWedgeName false ws
      = (some ("in_memory\\" ++ outWedgeName),
         ("in_memory\\" ++ outWedgeName) :: ws) := by
  unfold createOneWedgeWS
  rw [if_neg (by simp)]
  rw [List.erase_cons, if_neg (by simp only [beq_iff_eq]; exact hname),
    List.erase_cons, if_pos (beq_self_eq_true _)]

theorem success_path_releases_intermediates_witness :
    createOneWedgeWS "oWedge" false []
      = (some ("in_memory\\" ++ "oWedge"), ("in_memory\\" ++ "oWedge") :: []) :=
  success_path_releases_intermediates "oWedge" [] (by decide)

theorem single_failure_kills_batch_witness :
    buildAttributesList false "Meter"
      [⟨1, 0, 0, 0, 90, "5 METERS", ""⟩, ⟨2, 0, 0, 0, 90, "BAD", ""⟩,
       ⟨3, 0, 0, 0, 90, "7 FEET", ""⟩] = none :=
  single_failure_kills_batch false "Meter" [⟨1, 0, 0, 0, 90, "5 METERS", ""⟩]
    ⟨2, 0, 0, 0, 90, "BAD", ""⟩ [⟨3, 0, 0, 0, 90, "7 FEET", ""⟩] (by decide)
